import Mathlib

/-!
Verification development for the core services of the evm-mcp-server
repository (TypeScript).  The definitions below are shallow embeddings of
the functions in src/core/services/ens.ts (resolveAddress),
src/core/services/contracts.ts (getContractSourceCode),
src/core/services/transactions.ts (getTransactionHistory,
getTransactionsHistory, getTransactionTrace, decodeInput,
getFunctionNameAndArgsFromTx) and src/core/services/clients.ts
(getPublicClient).

External collaborators (the viem chain client, the Alchemy indexing SDK,
the Etherscan HTTP API, the Tenderly JSON-RPC endpoint, and the JS
JSON.parse runtime function) are modelled as explicit oracle parameters:
each embedded function is a pure function of the responses the outside
world would give.  A rejected promise / thrown exception is modelled as
Except.error carrying the message string.  Where a claim is about the
absence or presence of network traffic, the embedding additionally
returns the list of network calls the function performs, in order.

Machine-level abstractions, noted where used: ISO-8601 timestamp strings
are abstracted to their epoch value (an Option Nat, none for a null /
missing timestamp), since the source only ever feeds them to
new Date(x).getTime(); the Alchemy transfer value is abstracted to an
Option Nat; viem argument decoding is modelled for static-width
signatures (argument data decodes exactly when its length matches the
signature width).
-/

namespace EvmMcp

/-- Network calls an embedded function can perform, in program order. -/
inductive NetCall where
  | getEnsAddress (name : String)
  | getTransaction (hash : String)
  | getContractAbi (addr : String)
  | etherscanGetSource (addr : String)
  | tenderlyTrace (hash : String)
  | tenderlyDecodeInput (callData : String)
  | alchemyFromQuery (addr : String)
  | alchemyToQuery (addr : String)
deriving DecidableEq, Repr

/-- Hex digit test, mirroring the character class [A-Fa-f0-9].  String
scanning is done on the underlying character list throughout, so that
every definition evaluates by kernel reduction. -/
def isHexDigitChar (c : Char) : Bool :=
  (Char.ofNat 48 ≤ c && c ≤ Char.ofNat 57) ||
  (Char.ofNat 97 ≤ c && c ≤ Char.ofNat 102) ||
  (Char.ofNat 65 ≤ c && c ≤ Char.ofNat 70)

/-- The address regex of ens.ts: /^0x[a-fA-F0-9]\x7b40\x7d$/. -/
def isHexAddress (s : String) : Bool :=
  List.isPrefixOf ['0', 'x'] s.data &&
  (s.data.drop 2).length = 40 && (s.data.drop 2).all isHexDigitChar

/-- The transaction-hash regex of transactions.ts:
/^0x([A-Fa-f0-9]\x7b64\x7d)$/. -/
def isTxHashFormat (s : String) : Bool :=
  List.isPrefixOf ['0', 'x'] s.data &&
  (s.data.drop 2).length = 64 && (s.data.drop 2).all isHexDigitChar

/-- The call-data regex of decodeInput: /^0x([A-Fa-f0-9]\x7b8,\x7d)$/. -/
def isCallDataFormat (s : String) : Bool :=
  List.isPrefixOf ['0', 'x'] s.data &&
  8 ≤ (s.data.drop 2).length && (s.data.drop 2).all isHexDigitChar

/-- The includes test of ens.ts for the dot separator. -/
def includesDot (s : String) : Bool :=
  s.data.any (fun c => c == Char.ofNat 46)

/-- Oracle for the ENS collaborators used by resolveAddress: viem's
normalize (which throws on a malformed name) and
publicClient.getEnsAddress (which resolves a name to an address, to null,
or rejects).  The network argument of resolveAddress only selects the
client and is folded into this oracle. -/
structure EnsService where
  normalize : String → Except String String
  getEnsAddress : String → Except String (Option String)

/-- Embedding of resolveAddress (src/core/services/ens.ts).  Returns the
result together with the network calls performed. -/
def resolveAddress (svc : EnsService) (addressOrEns : String) :
    Except String String × List NetCall :=
  if isHexAddress addressOrEns then
    (Except.ok addressOrEns, [])
  else if includesDot addressOrEns then
    match svc.normalize addressOrEns with
    | Except.error e =>
        (Except.error ("Failed to resolve ENS name " ++ addressOrEns ++ ": " ++ e), [])
    | Except.ok normalizedEns =>
        match svc.getEnsAddress normalizedEns with
        | Except.error e =>
            (Except.error ("Failed to resolve ENS name " ++ addressOrEns ++ ": " ++ e),
             [NetCall.getEnsAddress normalizedEns])
        | Except.ok none =>
            (Except.error ("Failed to resolve ENS name " ++ addressOrEns ++ ": ENS name "
               ++ addressOrEns ++ " could not be resolved to an address"),
             [NetCall.getEnsAddress normalizedEns])
        | Except.ok (some address) =>
            (Except.ok address, [NetCall.getEnsAddress normalizedEns])
  else
    (Except.error ("Invalid address or ENS name: " ++ addressOrEns), [])

/-- JS values as seen by getContractSourceCode after JSON.parse.  undef
models the JS value undefined (in particular a missing object field). -/
inductive Json where
  | str (s : String)
  | obj (fields : List (String × Json))
  | jnull
  | undef
  | other

/-- JS field access o.k on a parsed value: the field value on an object
that has the key (objects produced by JSON.parse have unique keys),
undefined otherwise. -/
def Json.getField (j : Json) (k : String) : Json :=
  match j with
  | Json.obj fields =>
      match fields.find? (fun p => p.1 == k) with
      | some p => p.2
      | none => Json.undef
  | _ => Json.undef

/-- Return type of getContractSourceCode: a multi-file mapping, the raw
source string, or undefined.  The mapping is modelled as the lookup
function of the JS Record built by the loop. -/
inductive SourceResult where
  | fileMap (m : String → Option Json)
  | raw (s : String)
  | undef

/-- JS String.split for the slash separator, on character lists:
splitting the empty string gives one empty group; every slash closes the
current group. -/
def splitOnSlash : List Char → List (List Char)
  | [] => [[]]
  | c :: rest =>
      match splitOnSlash rest with
      | [] => [[c]]
      | g :: gs =>
          if c == Char.ofNat 47 then [] :: g :: gs else (c :: g) :: gs

/-- Embedding of filePath.split(sep).pop() with the || filePath default
of contracts.ts, for sep = the slash character (a trailing-slash path
pops the empty string, which is falsy). -/
def basenameOf (filePath : String) : String :=
  match (splitOnSlash filePath.data).getLast? with
  | some last => if last = [] then filePath else String.mk last
  | none => filePath

/-- Embedding of the flattening loop of getContractSourceCode:
sourceCodes[fileName] = sourceInfo.content, over Object.entries of the
sources object, starting from the empty record. -/
def buildSourceMap (fields : List (String × Json)) : String → Option Json :=
  fields.foldl
    (fun sourceCodes p =>
      fun k => if k = basenameOf p.1 then some (Json.getField p.2 "content") else sourceCodes k)
    (fun _ => none)

/-- The opening brace character. -/
def lbrace : Char := Char.ofNat 123

/-- The closing brace character. -/
def rbrace : Char := Char.ofNat 125

/-- The double-brace wrapping test of getContractSourceCode:
sourceCodeString.startsWith of two opening braces together with
endsWith of two closing braces. -/
def wrappedDoubleBraced (s : String) : Bool :=
  List.isPrefixOf [lbrace, lbrace] s.data &&
  List.isSuffixOf [rbrace, rbrace] s.data

/-- slice(1, -1): remove the first and the last character. -/
def sliceOneOne (s : String) : String :=
  String.mk ((s.data.drop 1).dropLast)

/-- The Etherscan getsourcecode reply, projected to the two fields the
function reads: data.status and data.result[0].SourceCode. -/
structure EtherscanSourceReply where
  status : String
  sourceCode : String

/-- The body of getContractSourceCode after the Etherscan fetch, as a
function of the JSON.parse oracle and the reply fields.  Mirrors
src/core/services/contracts.ts lines 87-116: on status 1, a SourceCode
wrapped in double braces is sliced by one character on each side and
parsed; a parse failure is caught (logged) and control falls out of the
function, returning undefined; a parsed object with an object-valued
sources field is flattened to a base-filename record; any other shape
also falls out to undefined; an unwrapped SourceCode is returned raw;
status other than 1 returns undefined. -/
def sourcePayloadResult (parse : String → Option Json)
    (status sourceCodeString : String) : SourceResult :=
  if status = "1" then
    if wrappedDoubleBraced sourceCodeString then
      match parse (sliceOneOne sourceCodeString) with
      | some sourceCode =>
          match Json.getField sourceCode "sources" with
          | Json.obj fields => SourceResult.fileMap (buildSourceMap fields)
          | _ => SourceResult.undef
      | none => SourceResult.undef
    else SourceResult.raw sourceCodeString
  else SourceResult.undef

/-- Embedding of getContractSourceCode (src/core/services/contracts.ts).
The address is resolved first; the Etherscan HTTP GET is the oracle
etherscan (a rejected fetch propagates); the rest is
sourcePayloadResult. -/
def getContractSourceCode (svc : EnsService) (parse : String → Option Json)
    (etherscan : String → Except String EtherscanSourceReply)
    (addressOrEns : String) : Except String SourceResult :=
  match (resolveAddress svc addressOrEns).1 with
  | Except.error e => Except.error e
  | Except.ok address =>
      match etherscan address with
      | Except.error e => Except.error e
      | Except.ok data => Except.ok (sourcePayloadResult parse data.status data.sourceCode)

/-- The nested rawContract field of an Alchemy transfer record. -/
structure RawContract where
  address : Option String
deriving DecidableEq, Repr

/-- The nested metadata field of an Alchemy transfer record.  The ISO
blockTimestamp string is abstracted to its epoch value. -/
structure TransferMetadata where
  blockTimestamp : Option Nat
deriving DecidableEq, Repr

/-- An Alchemy AssetTransfersWithMetadataResult, projected to the fields
the aggregation reads.  uniqueId is the indexer-assigned transfer id and
carries the log/sub-index. -/
structure RawTransfer where
  uniqueId : String
  hash : String
  fromAddr : String
  toAddr : String
  value : Option Nat
  asset : Option String
  rawContract : Option RawContract
  metadata : Option TransferMetadata
deriving DecidableEq, Repr

/-- A transfer after the flattening step of getTransactionHistory. -/
structure FlatTransfer where
  uniqueId : String
  hash : String
  fromAddr : String
  toAddr : String
  value : Option Nat
  asset : Option String
  contractAddress : Option String
  blockTimestamp : Option Nat
deriving DecidableEq, Repr

/-- JS x || null over an optional string: null and the empty string are
both falsy and map to null. -/
def orNullStr (x : Option String) : Option String :=
  match x with
  | some s => if s = "" then none else some s
  | none => none

/-- The flattening map of getTransactionHistory:
contractAddress := rawContract?.address || null and
blockTimestamp := metadata?.blockTimestamp || null, other fields kept.
Under the epoch abstraction a present timestamp is always truthy. -/
def flattenTransfer (t : RawTransfer) : FlatTransfer :=
  { uniqueId := t.uniqueId
    hash := t.hash
    fromAddr := t.fromAddr
    toAddr := t.toAddr
    value := t.value
    asset := t.asset
    contractAddress := orNullStr (t.rawContract.bind RawContract.address)
    blockTimestamp := t.metadata.bind TransferMetadata.blockTimestamp }

/-- The effective time of the sort comparator:
x.blockTimestamp ? new Date(x.blockTimestamp).getTime() : 0. -/
def effTime (t : Option Nat) : Nat :=
  match t with
  | some v => v
  | none => 0

/-- The sort comparator (a, b) => bTime - aTime as a stable-sort order:
a stays before b exactly when the comparator is nonpositive. -/
def histLe (a b : FlatTransfer) : Bool :=
  decide (effTime b.blockTimestamp ≤ effTime a.blockTimestamp)

/-- The merge / flatten / sort pipeline of getTransactionHistory
(lines 119-141): push both directional result sets when nonempty,
flatten, then sort with the stable JS Array sort. -/
def aggregateHistory (fromTransfers toTransfers : List RawTransfer) : List FlatTransfer :=
  let transactions :=
    (if 0 < fromTransfers.length then fromTransfers else []) ++
    (if 0 < toTransfers.length then toTransfers else [])
  let flattened := transactions.map flattenTransfer
  flattened.mergeSort histLe

/-- Oracle for the two directional Alchemy getAssetTransfers queries
issued by the history aggregation (fromAddress-scoped and
toAddress-scoped); a rejected SDK call is an error. -/
structure AlchemyService where
  getAssetTransfersFrom : String → Except String (List RawTransfer)
  getAssetTransfersTo : String → Except String (List RawTransfer)

/-- Embedding of getTransactionHistory (transactions.ts of the history
service, lines 90-142): resolve the address, await the from-query then
the to-query (a rejection propagates and aborts the call), then merge,
flatten and sort. -/
def getTransactionHistory (svc : EnsService) (alchemy : AlchemyService)
    (addressOrEns : String) : Except String (List FlatTransfer) :=
  match (resolveAddress svc addressOrEns).1 with
  | Except.error e => Except.error e
  | Except.ok address =>
      match alchemy.getAssetTransfersFrom address with
      | Except.error e => Except.error e
      | Except.ok fromData =>
          match alchemy.getAssetTransfersTo address with
          | Except.error e => Except.error e
          | Except.ok toData => Except.ok (aggregateHistory fromData toData)

/-- Embedding of the near-duplicate getTransactionsHistory (lines 63-105
of the duplicate transactions service): same two queries, but the raw
transfers of both directions are returned concatenated, with no
flattening, no sorting and no deduplication. -/
def getTransactionsHistory (svc : EnsService) (alchemy : AlchemyService)
    (addressOrEns : String) : Except String (List RawTransfer) :=
  match (resolveAddress svc addressOrEns).1 with
  | Except.error e => Except.error e
  | Except.ok address =>
      match alchemy.getAssetTransfersFrom address with
      | Except.error e => Except.error e
      | Except.ok fromData =>
          match alchemy.getAssetTransfersTo address with
          | Except.error e => Except.error e
          | Except.ok toData =>
              Except.ok
                ((if 0 < fromData.length then fromData else []) ++
                 (if 0 < toData.length then toData else []))

/-- The identity tuple of a flattened transfer record: source transaction
id, indexer transfer id (carrying the log/sub-index), asset, from, to,
value. -/
def identityTuple (t : FlatTransfer) :
    String × String × Option String × String × String × Option Nat :=
  (t.hash, t.uniqueId, t.asset, t.fromAddr, t.toAddr, t.value)

/-- The identity tuple of a raw transfer record. -/
def identityTupleRaw (t : RawTransfer) :
    String × String × Option String × String × String × Option Nat :=
  (t.hash, t.uniqueId, t.asset, t.fromAddr, t.toAddr, t.value)

/-- A transaction as read by getFunctionNameAndArgsFromTx: target address
and input call-data (input may be absent; contract-creation targets are
out of scope, so to is a string). -/
structure Tx where
  toAddr : String
  input : Option String
deriving DecidableEq, Repr

/-- One ABI function as used by the local decode: name, 4-byte selector
(0x plus 8 hex characters), and the number of 32-byte argument words of
its static-width signature. -/
structure AbiFunction where
  name : String
  selector : String
  argWords : Nat
deriving DecidableEq, Repr

/-- A decoded call as returned by viem decodeFunctionData. -/
structure DecodedCall where
  functionName : String
  args : List String
deriving DecidableEq, Repr

/-- Splits argument data into n 64-character words. -/
def chunk64 : Nat → List Char → List String
  | 0, _ => []
  | n + 1, cs => String.mk (cs.take 64) :: chunk64 n (cs.drop 64)

/-- Model of viem decodeFunctionData: match the leading 4-byte selector
against the ABI; no match throws a signature-not-found error; on a match
the trailing bytes decode exactly when their length fits the signature
(static-width model), otherwise a data-size error is thrown. -/
def decodeFunctionData (abi : List AbiFunction) (data : String) :
    Except String DecodedCall :=
  let selector := String.mk (data.data.take 10)
  match abi.find? (fun f => f.selector == selector) with
  | none =>
      Except.error ("Encoded function signature " ++ selector ++ " not found on ABI")
  | some f =>
      let argData := data.data.drop 10
      if argData.length = 64 * f.argWords then
        Except.ok { functionName := f.name, args := chunk64 f.argWords argData }
      else
        Except.error "Data size mismatch"

/-- The tenderly_decodeInput reply shape. -/
structure TenderlyDecoded where
  functionName : String
  args : Option (List String)
deriving DecidableEq, Repr

/-- Oracles for the collaborators of the decode pipeline: the chain
client getTransaction (ok none models a falsy result), the
getContractAbi service at its interface (ok none models an unverified
contract), and the two Tenderly JSON-RPC methods. -/
structure World where
  getTransaction : String → Except String (Option Tx)
  getContractAbi : String → Except String (Option (List AbiFunction))
  tenderlyDecodeInput : String → Except String TenderlyDecoded
  tenderlyTraceTransaction : String → Except String String

/-- Embedding of decodeInput (transactions.ts lines 147-183): validate
the call-data format (a JS undefined call-data stringifies and fails the
regex), then submit to tenderly_decodeInput; a rejection is caught and
rethrown with the Failed-to-decode-input prefix. -/
def decodeInput (w : World) (callData : Option String) :
    Except String TenderlyDecoded × List NetCall :=
  match callData with
  | none => (Except.error "Invalid call data format", [])
  | some cd =>
      if isCallDataFormat cd then
        match w.tenderlyDecodeInput cd with
        | Except.ok r => (Except.ok r, [NetCall.tenderlyDecodeInput cd])
        | Except.error e =>
            (Except.error ("Failed to decode input: " ++ e), [NetCall.tenderlyDecodeInput cd])
      else
        (Except.error "Invalid call data format", [])

/-- Embedding of getFunctionNameAndArgsFromTx
(src/core/services/transactions.ts lines 191-217).  The transaction is
fetched first, with no hash validation; then the ABI; then, inside one
try block: when an ABI and an input are present, decodeFunctionData runs
and a successful result returns immediately, while an exception it
throws is caught by the catch and rethrown with the
Failed-to-decode-function-signature prefix; only when the ABI or the
input is absent does control reach decodeInput, whose own failure is
wrapped by the same catch. -/
def getFunctionNameAndArgsFromTx (w : World) (hash : String) :
    Except String TenderlyDecoded × List NetCall :=
  match w.getTransaction hash with
  | Except.error e => (Except.error e, [NetCall.getTransaction hash])
  | Except.ok none =>
      (Except.error ("Failed to get transaction input: " ++ hash),
       [NetCall.getTransaction hash])
  | Except.ok (some tx) =>
      match w.getContractAbi tx.toAddr with
      | Except.error e =>
          (Except.error e, [NetCall.getTransaction hash, NetCall.getContractAbi tx.toAddr])
      | Except.ok abiOpt =>
          let calls := [NetCall.getTransaction hash, NetCall.getContractAbi tx.toAddr]
          match abiOpt, tx.input with
          | some abi, some inp =>
              (match decodeFunctionData abi inp with
               | Except.ok r =>
                   (Except.ok { functionName := r.functionName, args := some r.args }, calls)
               | Except.error e =>
                   (Except.error ("Failed to decode function signature: " ++ e), calls))
          | _, _ =>
              let remote := decodeInput w tx.input
              (match remote.1 with
               | Except.ok d => (Except.ok d, calls ++ remote.2)
               | Except.error e =>
                   (Except.error ("Failed to decode function signature: " ++ e),
                    calls ++ remote.2))

/-- Embedding of getTransactionTrace (transactions.ts lines 111-137):
the hash format is checked before the request (client construction is
local and performs no network call); a tenderly_traceTransaction
rejection is caught and rethrown with the Failed-to-fetch prefix. -/
def getTransactionTrace (w : World) (hash : String) :
    Except String String × List NetCall :=
  if isTxHashFormat hash then
    match w.tenderlyTraceTransaction hash with
    | Except.ok r => (Except.ok r, [NetCall.tenderlyTrace hash])
    | Except.error e =>
        (Except.error ("Failed to fetch transaction trace: " ++ e), [NetCall.tenderlyTrace hash])
  else
    (Except.error "Invalid transaction hash format", [])

/-- The client cache of src/core/services/clients.ts: the Map from
network name to client, with the id counter standing for construction of
a fresh client object (distinct ids are distinct objects). -/
structure ClientCacheState where
  entries : List (String × Nat)
  nextId : Nat
deriving DecidableEq, Repr

/-- Embedding of getPublicClient: return the cached client for the
network when present; otherwise construct a fresh client, cache it, and
return it. -/
def getPublicClient (s : ClientCacheState) (network : String) :
    Nat × ClientCacheState :=
  match s.entries.lookup network with
  | some client => (client, s)
  | none =>
      (s.nextId,
       { entries := s.entries ++ [(network, s.nextId)], nextId := s.nextId + 1 })

/-! Concrete collaborators and inputs used by the closed theorems and the
witnesses below. -/

/-- Stub ENS oracle: every name normalizes to itself and resolves to
nothing. -/
def svcStub : EnsService :=
  { normalize := fun s => Except.ok s
    getEnsAddress := fun _ => Except.ok none }

/-- A concrete well-formed 40-hex-character address. -/
def addr40 : String := "0xAbCdEf0123456789aBcDeF0123456789AbCdEf01"

/-- A concrete well-formed 64-hex-character transaction hash. -/
def hash64 : String :=
  "0x1234567890abcdef1234567890abcdef1234567890abcdef1234567890abcdef"

/-- A transaction whose call-data selector 0xa9059cbb is not in the
fetched ABI. -/
def txMismatch : Tx :=
  { toAddr := "0x1111111111111111111111111111111111111111"
    input := some "0xa9059cbb0000000000000000000000000000000000000000000000000000000000000001" }

/-- A one-function verified ABI whose only selector is 0x40c10f19. -/
def abiMint : List AbiFunction :=
  [{ name := "mint", selector := "0x40c10f19", argWords := 2 }]

/-- A world where the transaction and the ABI are fetched successfully,
the local selector mismatches, and the remote heuristic decoder would
succeed on any call-data. -/
def worldMismatch : World :=
  { getTransaction := fun _ => Except.ok (some txMismatch)
    getContractAbi := fun _ => Except.ok (some abiMint)
    tenderlyDecodeInput := fun _ =>
      Except.ok { functionName := "transfer", args := some ["0x2", "1"] }
    tenderlyTraceTransaction := fun _ => Except.ok "trace" }

/-- A world where no transaction is found and the trace service is
unavailable. -/
def worldNoTx : World :=
  { getTransaction := fun _ => Except.ok none
    getContractAbi := fun _ => Except.ok none
    tenderlyDecodeInput := fun _ => Except.error "service unavailable"
    tenderlyTraceTransaction := fun _ => Except.error "service unavailable" }

/-- A multi-file sources object with two files colliding on the base
filename Token.sol. -/
def srcFields : List (String × Json) :=
  [("contracts/Token.sol", Json.obj [("content", Json.str "token v1")]),
   ("lib/util/Token.sol", Json.obj [("content", Json.str "token v2")]),
   ("Main.sol", Json.obj [("content", Json.str "main src")])]

/-- A verified Etherscan reply whose SourceCode is wrapped in double
braces. -/
def bundleReply : EtherscanSourceReply :=
  { status := "1", sourceCode := "\x7b\x7bBUNDLE\x7d\x7d" }

/-- A JSON.parse oracle that parses the bundle to an object carrying the
sources of srcFields. -/
def parseBundle : String → Option Json :=
  fun _ => some (Json.obj [("sources", Json.obj srcFields)])

/-- Etherscan oracle returning the well-formed bundle reply. -/
def etherscanBundle : String → Except String EtherscanSourceReply :=
  fun _ => Except.ok bundleReply

/-- A verified reply whose double-brace-wrapped SourceCode is not valid
JSON. -/
def badReply : EtherscanSourceReply :=
  { status := "1", sourceCode := "\x7b\x7bnot-json\x7d\x7d" }

/-- A JSON.parse oracle that fails on every input (malformed JSON). -/
def parseFail : String → Option Json := fun _ => none

/-- Etherscan oracle returning the malformed bundle reply. -/
def etherscanBad : String → Except String EtherscanSourceReply :=
  fun _ => Except.ok badReply

/-- A transfer record returned identically by both directional
queries. -/
def transferDup : RawTransfer :=
  { uniqueId := "0xccc:log:7", hash := "0xccc", fromAddr := "0xA", toAddr := "0xB"
    value := some 42, asset := some "USDC"
    rawContract := some { address := some "0xdead" }
    metadata := some { blockTimestamp := some 500 } }

/-- A transfer with the older timestamp 100. -/
def transferOld : RawTransfer :=
  { uniqueId := "0xold:external", hash := "0xold", fromAddr := "0xA", toAddr := "0xB"
    value := some 1, asset := some "ETH"
    rawContract := some { address := none }
    metadata := some { blockTimestamp := some 100 } }

/-- A transfer with the newer timestamp 200. -/
def transferNew : RawTransfer :=
  { uniqueId := "0xnew:external", hash := "0xnew", fromAddr := "0xB", toAddr := "0xA"
    value := some 2, asset := some "ETH"
    rawContract := some { address := none }
    metadata := some { blockTimestamp := some 200 } }

/-- Both directional queries return the same record. -/
def alchemyOverlap : AlchemyService :=
  { getAssetTransfersFrom := fun _ => Except.ok [transferDup]
    getAssetTransfersTo := fun _ => Except.ok [transferDup] }

/-- The from-query returns the older record, the to-query the newer
one, so the concatenation is in increasing timestamp order. -/
def alchemyUnsorted : AlchemyService :=
  { getAssetTransfersFrom := fun _ => Except.ok [transferOld]
    getAssetTransfersTo := fun _ => Except.ok [transferNew] }

/-- Both queries succeed, newest first. -/
def alchemySorted : AlchemyService :=
  { getAssetTransfersFrom := fun _ => Except.ok [transferNew]
    getAssetTransfersTo := fun _ => Except.ok [transferOld] }

/-- The from-direction query is rate-limited, the to-direction query
succeeds. -/
def alchemyFromFails : AlchemyService :=
  { getAssetTransfersFrom := fun _ => Except.error "Rate limit exceeded"
    getAssetTransfersTo := fun _ => Except.ok [transferOld] }

/-- The from-direction query succeeds, the to-direction query is
rate-limited. -/
def alchemyToFails : AlchemyService :=
  { getAssetTransfersFrom := fun _ => Except.ok [transferOld]
    getAssetTransfersTo := fun _ => Except.error "Rate limit exceeded" }

/-! Supporting lemmas. -/

/-- A key found in the first part of an association list is found, with
the same value, in the concatenation. -/
lemma lookup_append_some {β : Type} (l1 l2 : List (String × β)) (k : String) (v : β)
    (h : l1.lookup k = some v) : (l1 ++ l2).lookup k = some v := by
  induction l1 with
  | nil => simp [List.lookup] at h
  | cons p rest ih =>
    match p with
    | (a, b) =>
      simp only [List.cons_append, List.lookup] at h ⊢
      cases hk : (k == a) with
      | true => simp only [hk] at h ⊢; exact h
      | false => simp only [hk] at h ⊢; exact ih h

/-- A key absent from the first part of an association list is looked up
in the second part. -/
lemma lookup_append_none {β : Type} (l1 l2 : List (String × β)) (k : String)
    (h : l1.lookup k = none) : (l1 ++ l2).lookup k = l2.lookup k := by
  induction l1 with
  | nil => simp
  | cons p rest ih =>
    match p with
    | (a, b) =>
      simp only [List.cons_append, List.lookup] at h ⊢
      cases hk : (k == a) with
      | true => simp only [hk] at h; exact (Option.some_ne_none b h).elim
      | false => simp only [hk] at h ⊢; exact ih h

/-- The record built by the flattening loop, read at key k, holds the
content of the last sources entry whose base filename is k. -/
lemma buildSourceMap_go (fields : List (String × Json)) (acc : String → Option Json)
    (k : String) :
    (fields.foldl
        (fun sourceCodes p =>
          fun k2 => if k2 = basenameOf p.1 then some (Json.getField p.2 "content")
                    else sourceCodes k2)
        acc) k
      = match fields.reverse.find? (fun p => basenameOf p.1 == k) with
        | some p => some (Json.getField p.2 "content")
        | none => acc k := by
  induction fields generalizing acc with
  | nil => rfl
  | cons p rest ih =>
    simp only [List.foldl_cons, List.reverse_cons, List.find?_append]
    rw [ih]
    cases hfind : rest.reverse.find? (fun q => basenameOf q.1 == k) with
    | some q => simp [Option.or]
    | none =>
      simp only [Option.or, List.find?_cons, List.find?_nil]
      by_cases hk : basenameOf p.1 = k
      · subst hk
        simp
      · have hb : (basenameOf p.1 == k) = false := by
          simpa using hk
        have hb2 : ¬ (k = basenameOf p.1) := fun he => hk he.symm
        simp [hb, hb2]

/-- buildSourceMap in terms of a reverse search: last write wins and
every key is a base filename of a sources path. -/
lemma buildSourceMap_lookup (fields : List (String × Json)) (k : String) :
    buildSourceMap fields k
      = (fields.reverse.find? (fun p => basenameOf p.1 == k)).map
          (fun p => Json.getField p.2 "content") := by
  unfold buildSourceMap
  rw [buildSourceMap_go]
  cases fields.reverse.find? (fun p => basenameOf p.1 == k) <;> simp

/-- The sort order of the history comparator is transitive. -/
lemma histLe_trans : ∀ (a b c : FlatTransfer),
    histLe a b = true → histLe b c = true → histLe a c = true := by
  intro a b c hab hbc
  simp only [histLe, decide_eq_true_eq] at hab hbc ⊢
  omega

/-- The sort order of the history comparator is total. -/
lemma histLe_total : ∀ (a b : FlatTransfer), (histLe a b || histLe b a) = true := by
  intro a b
  simp only [histLe, Bool.or_eq_true, decide_eq_true_eq]
  omega

/-- The two length-guarded pushes amount to plain concatenation. -/
lemma guard_append (l1 l2 : List RawTransfer) :
    (if 0 < l1.length then l1 else []) ++ (if 0 < l2.length then l2 else []) = l1 ++ l2 := by
  cases l1 <;> cases l2 <;> simp

/-- aggregateHistory is the stable sort of the flattened
concatenation. -/
lemma aggregateHistory_eq (fromData toData : List RawTransfer) :
    aggregateHistory fromData toData
      = ((fromData ++ toData).map flattenTransfer).mergeSort histLe := by
  unfold aggregateHistory
  rw [guard_append]

/-- The aggregated output is non-increasing in effective timestamp. -/
lemma aggregateHistory_sorted (fromData toData : List RawTransfer) :
    (aggregateHistory fromData toData).Pairwise
      (fun a b => effTime b.blockTimestamp ≤ effTime a.blockTimestamp) := by
  rw [aggregateHistory_eq]
  have h := List.sorted_mergeSort histLe_trans histLe_total
      ((fromData ++ toData).map flattenTransfer)
  exact h.imp (fun hab => by simpa [histLe, decide_eq_true_eq] using hab)

/-- After any null-timestamp record, only records of effective time 0
can follow. -/
lemma aggregateHistory_nulls_last (fromData toData : List RawTransfer) :
    (aggregateHistory fromData toData).Pairwise
      (fun a b => a.blockTimestamp = none → effTime b.blockTimestamp = 0) := by
  have h := aggregateHistory_sorted fromData toData
  refine h.imp (fun hab ha => ?_)
  have h0 : effTime none = 0 := rfl
  rw [ha] at hab
  omega

/-- Stability of the sort: within one effective-timestamp class, the
sorted output lists the records in their original order. -/
lemma mergeSort_filter_key (L : List FlatTransfer) (v : Nat) :
    (L.mergeSort histLe).filter (fun x => effTime x.blockTimestamp == v)
      = L.filter (fun x => effTime x.blockTimestamp == v) := by
  have hpair : (L.filter (fun x => effTime x.blockTimestamp == v)).Pairwise
      (fun a b => histLe a b = true) := by
    apply List.pairwise_of_forall_mem_list
    intro a ha b hb
    have ha2 := @List.of_mem_filter FlatTransfer
      (fun x => effTime x.blockTimestamp == v) a L ha
    have hb2 := @List.of_mem_filter FlatTransfer
      (fun x => effTime x.blockTimestamp == v) b L hb
    simp only [beq_iff_eq] at ha2 hb2
    simp [histLe, ha2, hb2]
  have h1 : (L.filter (fun x => effTime x.blockTimestamp == v)).Sublist
      (L.mergeSort histLe) :=
    List.sublist_mergeSort histLe_trans histLe_total hpair (List.filter_sublist L)
  have h3 : (L.filter (fun x => effTime x.blockTimestamp == v)).Sublist
      ((L.mergeSort histLe).filter (fun x => effTime x.blockTimestamp == v)) := by
    have h4 := List.Sublist.filter (fun x => effTime x.blockTimestamp == v) h1
    rwa [List.filter_filter, show
        (fun a => (effTime a.blockTimestamp == v) && (effTime a.blockTimestamp == v))
          = (fun a : FlatTransfer => effTime a.blockTimestamp == v) from
        funext (fun a => Bool.and_self _)] at h4
  have h2 : ((L.mergeSort histLe).filter (fun x => effTime x.blockTimestamp == v)).Perm
      (L.filter (fun x => effTime x.blockTimestamp == v)) :=
    (List.mergeSort_perm L histLe).filter _
  exact ((List.Sublist.eq_of_length h3 h2.length_eq.symm)).symm

/-! Claim theorems. -/

/-- Claim C6: for every input string matching the fixed-width
hexadecimal address pattern (0x followed by 40 hex characters),
resolveAddress returns that address unchanged (in particular unchanged
up to case normalization) and performs no network call, for every ENS
collaborator. -/
theorem resolveAddress_hex_identity (svc : EnsService) (s : String)
    (h : isHexAddress s = true) :
    resolveAddress svc s = (Except.ok s, []) := by
  unfold resolveAddress
  simp [h]

/-- Witness for C6 at a concrete 40-hex-character address. -/
theorem resolveAddress_hex_identity_witness :
    isHexAddress addr40 = true ∧
    resolveAddress svcStub addr40 = (Except.ok addr40, []) :=
  ⟨by decide, resolveAddress_hex_identity svcStub addr40 (by decide)⟩

/-- Claim C7: for every input string that is neither a valid hex address
nor contains a dot separator, resolveAddress fails with the
invalid-identifier error and performs no network call, for every ENS
collaborator. -/
theorem resolveAddress_invalid_identifier (svc : EnsService) (s : String)
    (h1 : isHexAddress s = false) (h2 : includesDot s = false) :
    resolveAddress svc s
      = (Except.error ("Invalid address or ENS name: " ++ s), []) := by
  unfold resolveAddress
  simp [h1, h2]

/-- Witness for C7 at a concrete separator-free non-address string. -/
theorem resolveAddress_invalid_identifier_witness :
    isHexAddress "vitalik" = false ∧
    includesDot "vitalik" = false ∧
    resolveAddress svcStub "vitalik"
      = (Except.error ("Invalid address or ENS name: " ++ "vitalik"), []) :=
  ⟨by decide, by decide,
   resolveAddress_invalid_identifier svcStub "vitalik" (by decide) (by decide)⟩

/-- Claim C4, counterexample: on the malformed hash 0xzz,
getFunctionNameAndArgsFromTx does not fail fast with an
invalid-hash-format error before any network call: its very first action
is the network fetch of the transaction (the call list is nonempty), and
the error it surfaces is the missing-transaction error, not a hash
format error.  The claimed validation does not exist in this
function. -/
theorem getFunctionNameAndArgsFromTx_no_hash_validation :
    isTxHashFormat "0xzz" = false ∧
    getFunctionNameAndArgsFromTx worldNoTx "0xzz"
      = (Except.error ("Failed to get transaction input: " ++ "0xzz"),
         [NetCall.getTransaction "0xzz"]) :=
  ⟨by decide, rfl⟩

/-- Claim C4, amended: the fixed-width hash validation lives in
getTransactionTrace, not in getFunctionNameAndArgsFromTx: for every hash
failing the 0x-plus-64-hex pattern, getTransactionTrace fails with the
invalid-hash-format error and performs no network call. -/
theorem getTransactionTrace_invalid_hash_fails_fast (w : World) (h : String)
    (hh : isTxHashFormat h = false) :
    getTransactionTrace w h = (Except.error "Invalid transaction hash format", []) := by
  unfold getTransactionTrace
  simp [hh]

/-- Witness for the amended C4 at the concrete malformed hash 0xzz. -/
theorem getTransactionTrace_invalid_hash_fails_fast_witness :
    isTxHashFormat "0xzz" = false ∧
    getTransactionTrace worldNoTx "0xzz"
      = (Except.error "Invalid transaction hash format", []) :=
  ⟨by decide, getTransactionTrace_invalid_hash_fails_fast worldNoTx "0xzz" (by decide)⟩

/-- Claim C3 (code evaluation at the failing input): with the
transaction and a verified ABI both fetched successfully, and the
call-data selector 0xa9059cbb absent from that ABI, the local decode
throws, the catch of getFunctionNameAndArgsFromTx rethrows it
immediately, and the remote decoder is never invoked: the call list
contains no tenderlyDecodeInput entry, even though the modelled remote
decoder (second conjunct) succeeds on this very call-data.  The
two-tier fall-through the claim describes does not happen on a local
decode failure. -/
theorem getFunctionNameAndArgsFromTx_no_remote_fallback :
    getFunctionNameAndArgsFromTx worldMismatch hash64
      = (Except.error
           "Failed to decode function signature: Encoded function signature 0xa9059cbb not found on ABI",
         [NetCall.getTransaction hash64,
          NetCall.getContractAbi "0x1111111111111111111111111111111111111111"]) ∧
    worldMismatch.tenderlyDecodeInput
        "0xa9059cbb0000000000000000000000000000000000000000000000000000000000000001"
      = Except.ok { functionName := "transfer", args := some ["0x2", "1"] } :=
  ⟨rfl, rfl⟩

/-- Claim C8: for every verified multi-file payload whose SourceCode is
wrapped in double braces and parses to an object with an object-valued
sources field, getContractSourceCode returns the mapping from base
filename to file content; the mapping reads, at each key k, the content
of the last sources entry whose base filename is k (last write wins,
directory prefixes stripped). -/
theorem getContractSourceCode_multifile_map
    (svc : EnsService) (parse : String → Option Json)
    (etherscan : String → Except String EtherscanSourceReply)
    (addressOrEns address : String) (data : EtherscanSourceReply)
    (j : Json) (fields : List (String × Json))
    (hres : (resolveAddress svc addressOrEns).1 = Except.ok address)
    (heth : etherscan address = Except.ok data)
    (hstatus : data.status = "1")
    (hwrap : wrappedDoubleBraced data.sourceCode = true)
    (hparse : parse (sliceOneOne data.sourceCode) = some j)
    (hsources : Json.getField j "sources" = Json.obj fields) :
    getContractSourceCode svc parse etherscan addressOrEns
        = Except.ok (SourceResult.fileMap (buildSourceMap fields)) ∧
    ∀ k, buildSourceMap fields k
        = (fields.reverse.find? (fun p => basenameOf p.1 == k)).map
            (fun p => Json.getField p.2 "content") := by
  constructor
  · simp only [getContractSourceCode, hres, heth]
    simp [sourcePayloadResult, hstatus, hwrap, hparse, hsources]
  · intro k
    exact buildSourceMap_lookup fields k

/-- Witness for C8 on a concrete three-file bundle in which
contracts/Token.sol and lib/util/Token.sol collide on the base filename
Token.sol; the returned map holds the later content (token v2). -/
theorem getContractSourceCode_multifile_map_witness :
    wrappedDoubleBraced bundleReply.sourceCode = true ∧
    getContractSourceCode svcStub parseBundle etherscanBundle addr40
        = Except.ok (SourceResult.fileMap (buildSourceMap srcFields)) ∧
    buildSourceMap srcFields "Token.sol"
        = (srcFields.reverse.find? (fun p => basenameOf p.1 == "Token.sol")).map
            (fun p => Json.getField p.2 "content") ∧
    buildSourceMap srcFields "Token.sol" = some (Json.str "token v2") ∧
    buildSourceMap srcFields "Main.sol" = some (Json.str "main src") :=
  ⟨rfl,
   (getContractSourceCode_multifile_map svcStub parseBundle etherscanBundle addr40 addr40
      bundleReply (Json.obj [("sources", Json.obj srcFields)]) srcFields
      rfl rfl rfl rfl rfl rfl).1,
   (getContractSourceCode_multifile_map svcStub parseBundle etherscanBundle addr40 addr40
      bundleReply (Json.obj [("sources", Json.obj srcFields)]) srcFields
      rfl rfl rfl rfl rfl rfl).2 "Token.sol",
   rfl, rfl⟩

/-- Claim C9, counterexample: on a verified payload whose double-brace
wrapped SourceCode is malformed JSON, getContractSourceCode completes
with undefined, which is not the raw source string the claim says it
degrades to (it does not raise, but it returns nothing). -/
theorem getContractSourceCode_malformed_not_raw :
    getContractSourceCode svcStub parseFail etherscanBad addr40
        = Except.ok SourceResult.undef ∧
    wrappedDoubleBraced badReply.sourceCode = true ∧
    (Except.ok SourceResult.undef : Except String SourceResult)
      ≠ Except.ok (SourceResult.raw badReply.sourceCode) :=
  ⟨rfl, rfl, by intro h; exact SourceResult.noConfusion (Except.ok.inj h)⟩

/-- Claim C9, amended: for every verified payload wrapped in double
braces whose inner content is malformed JSON (the parse fails),
getContractSourceCode degrades to returning undefined — no value — and
does not raise an error. -/
theorem getContractSourceCode_malformed_degrades
    (svc : EnsService) (parse : String → Option Json)
    (etherscan : String → Except String EtherscanSourceReply)
    (addressOrEns address : String) (data : EtherscanSourceReply)
    (hres : (resolveAddress svc addressOrEns).1 = Except.ok address)
    (heth : etherscan address = Except.ok data)
    (hstatus : data.status = "1")
    (hwrap : wrappedDoubleBraced data.sourceCode = true)
    (hparse : parse (sliceOneOne data.sourceCode) = none) :
    getContractSourceCode svc parse etherscan addressOrEns
        = Except.ok SourceResult.undef := by
  simp only [getContractSourceCode, hres, heth]
  simp [sourcePayloadResult, hstatus, hwrap, hparse]

/-- Witness for the amended C9 at the concrete malformed bundle. -/
theorem getContractSourceCode_malformed_degrades_witness :
    parseFail (sliceOneOne badReply.sourceCode) = none ∧
    getContractSourceCode svcStub parseFail etherscanBad addr40
        = Except.ok SourceResult.undef :=
  ⟨rfl,
   getContractSourceCode_malformed_degrades svcStub parseFail etherscanBad addr40 addr40
     badReply rfl rfl rfl rfl rfl⟩

/-- Claim C5, counterexample: the surfaced error when the from-direction
query fails is byte-for-byte the same as when the to-direction query
fails: the raw upstream message with no direction information and no
distinct partial-result error.  The claim that the aggregator surfaces a
partial-result error naming the failed direction is false (what does
hold is that it never returns the successful half, see the amended
theorem). -/
theorem history_failure_error_lacks_direction :
    getTransactionHistory svcStub alchemyFromFails addr40
        = Except.error "Rate limit exceeded" ∧
    getTransactionHistory svcStub alchemyToFails addr40
        = Except.error "Rate limit exceeded" :=
  ⟨rfl, rfl⟩

/-- Claim C5, amended: whenever one directional query fails while the
other succeeds, getTransactionHistory surfaces the upstream error
unchanged — it never silently returns the successful half — but the
error does not name the failed direction. -/
theorem history_propagates_query_failure
    (svc : EnsService) (alchemy : AlchemyService)
    (addressOrEns address e : String) (fromData : List RawTransfer)
    (hres : (resolveAddress svc addressOrEns).1 = Except.ok address)
    (hcase : alchemy.getAssetTransfersFrom address = Except.error e ∨
      (alchemy.getAssetTransfersFrom address = Except.ok fromData ∧
       alchemy.getAssetTransfersTo address = Except.error e)) :
    getTransactionHistory svc alchemy addressOrEns = Except.error e := by
  rcases hcase with hf | ⟨hf, ht⟩
  · simp only [getTransactionHistory, hres, hf]
  · simp only [getTransactionHistory, hres, hf, ht]

/-- Witness for the amended C5: the to-direction fails after the
from-direction succeeded with one record; the record is discarded and
the upstream error is surfaced. -/
theorem history_propagates_query_failure_witness :
    (alchemyToFails.getAssetTransfersFrom addr40 = Except.ok [transferOld] ∧
     alchemyToFails.getAssetTransfersTo addr40 = Except.error "Rate limit exceeded") ∧
    getTransactionHistory svcStub alchemyToFails addr40
        = Except.error "Rate limit exceeded" :=
  ⟨⟨rfl, rfl⟩,
   history_propagates_query_failure svcStub alchemyToFails addr40 addr40
     "Rate limit exceeded" [transferOld] rfl (Or.inr ⟨rfl, rfl⟩)⟩

/-- Claim C1 (code evaluation at the failing input): when both
directional queries return the same record — equal identity tuple
(source transaction id, log/sub-index, asset, from, to, value) — both
getTransactionHistory and getTransactionsHistory return that identity
tuple twice, not exactly once: neither aggregation deduplicates. -/
theorem getTransactionHistory_keeps_duplicate :
    getTransactionHistory svcStub alchemyOverlap addr40
        = Except.ok [flattenTransfer transferDup, flattenTransfer transferDup] ∧
    List.countP
        (fun x => decide (identityTuple x = identityTuple (flattenTransfer transferDup)))
        [flattenTransfer transferDup, flattenTransfer transferDup] = 2 ∧
    getTransactionsHistory svcStub alchemyOverlap addr40
        = Except.ok [transferDup, transferDup] ∧
    List.countP (fun x => decide (identityTupleRaw x = identityTupleRaw transferDup))
        [transferDup, transferDup] = 2 := by
  have hagg : aggregateHistory [transferDup] [transferDup]
      = [flattenTransfer transferDup, flattenTransfer transferDup] := by
    have hs : List.Pairwise (fun a b => histLe a b = true)
        [flattenTransfer transferDup, flattenTransfer transferDup] := by decide
    rw [aggregateHistory_eq]
    exact List.mergeSort_of_sorted hs
  refine ⟨?_, by decide, rfl, by decide⟩
  have h1 : getTransactionHistory svcStub alchemyOverlap addr40
      = Except.ok (aggregateHistory [transferDup] [transferDup]) := rfl
  rw [h1, hagg]

/-- Claim C2, counterexample: getTransactionsHistory returns the two
directional result sets concatenated and unsorted; with the older record
in the from-result and the newer in the to-result, the output's
consecutive timestamps strictly increase, violating the non-increasing
sort invariant. -/
theorem getTransactionsHistory_unsorted :
    getTransactionsHistory svcStub alchemyUnsorted addr40
        = Except.ok [transferOld, transferNew] ∧
    effTime (transferOld.metadata.bind TransferMetadata.blockTimestamp)
      < effTime (transferNew.metadata.bind TransferMetadata.blockTimestamp) :=
  ⟨rfl, by decide⟩

/-- Claim C2, amended: getTransactionHistory (the path that sorts)
returns the aggregation whose effective timestamps (null as 0) are
non-increasing, in which every record after a null-timestamp record has
effective time 0, and which is stable: within each effective-timestamp
class the records keep their original source order (the order of the
flattened from-then-to concatenation); getTransactionsHistory, the
near-duplicate path, returns the concatenation of the two directional
result sets with no sorting at all. -/
theorem history_sort_amended
    (svc : EnsService) (alchemy : AlchemyService) (addressOrEns address : String)
    (fromData toData : List RawTransfer)
    (hres : (resolveAddress svc addressOrEns).1 = Except.ok address)
    (hfrom : alchemy.getAssetTransfersFrom address = Except.ok fromData)
    (hto : alchemy.getAssetTransfersTo address = Except.ok toData) :
    getTransactionHistory svc alchemy addressOrEns
        = Except.ok (aggregateHistory fromData toData) ∧
    (aggregateHistory fromData toData).Pairwise
      (fun a b => effTime b.blockTimestamp ≤ effTime a.blockTimestamp) ∧
    (aggregateHistory fromData toData).Pairwise
      (fun a b => a.blockTimestamp = none → effTime b.blockTimestamp = 0) ∧
    (∀ v, (aggregateHistory fromData toData).filter
            (fun x => effTime x.blockTimestamp == v)
        = ((fromData ++ toData).map flattenTransfer).filter
            (fun x => effTime x.blockTimestamp == v)) ∧
    getTransactionsHistory svc alchemy addressOrEns = Except.ok (fromData ++ toData) := by
  refine ⟨?_, aggregateHistory_sorted fromData toData,
    aggregateHistory_nulls_last fromData toData, ?_, ?_⟩
  · simp only [getTransactionHistory, hres, hfrom, hto]
  · intro v
    rw [aggregateHistory_eq]
    exact mergeSort_filter_key _ v
  · simp only [getTransactionsHistory, hres, hfrom, hto, guard_append]

/-- Witness for the amended C2 at a concrete pair of one-record
results. -/
theorem history_sort_amended_witness :
    (alchemySorted.getAssetTransfersFrom addr40 = Except.ok [transferNew] ∧
     alchemySorted.getAssetTransfersTo addr40 = Except.ok [transferOld]) ∧
    getTransactionHistory svcStub alchemySorted addr40
        = Except.ok (aggregateHistory [transferNew] [transferOld]) ∧
    getTransactionsHistory svcStub alchemySorted addr40
        = Except.ok ([transferNew] ++ [transferOld]) :=
  ⟨⟨rfl, rfl⟩,
   (history_sort_amended svcStub alchemySorted addr40 addr40 [transferNew] [transferOld]
      rfl rfl rfl).1,
   (history_sort_amended svcStub alchemySorted addr40 addr40 [transferNew] [transferOld]
      rfl rfl rfl).2.2.2.2⟩

/-- Claim C10: getPublicClient is get-or-create on the client cache: for
every call getPublicClient s n = (c, s1), a repeated call with an equal
network string returns the identical client c with the state unchanged
(no new client is constructed), every entry already cached in s is still
cached unchanged in s1 (entries are never replaced), and n is cached as
c in s1. -/
theorem getPublicClient_cache_stable (s : ClientCacheState) (n k : String)
    (v c : Nat) (s1 : ClientCacheState)
    (hk : s.entries.lookup k = some v)
    (hcall : getPublicClient s n = (c, s1)) :
    getPublicClient s1 n = (c, s1) ∧
    s1.entries.lookup k = some v ∧
    s1.entries.lookup n = some c := by
  cases hn : s.entries.lookup n with
  | some c0 =>
    unfold getPublicClient at hcall
    rw [hn] at hcall
    simp only [Prod.mk.injEq] at hcall
    obtain ⟨hc, hs⟩ := hcall
    subst hc
    subst hs
    refine ⟨?_, hk, hn⟩
    unfold getPublicClient
    rw [hn]
  | none =>
    unfold getPublicClient at hcall
    rw [hn] at hcall
    simp only [Prod.mk.injEq] at hcall
    obtain ⟨hc, hs⟩ := hcall
    subst hc
    subst hs
    have hlookupn :
        (s.entries ++ [(n, s.nextId)]).lookup n = some s.nextId := by
      rw [lookup_append_none _ _ _ hn]
      simp [List.lookup]
    refine ⟨?_, lookup_append_some _ _ _ _ hk, hlookupn⟩
    unfold getPublicClient
    simp only [hlookupn]

/-- Witness for C10: a concrete cache holding base as client 7; a call
for ethereum constructs client 8, repeats idempotently, and preserves
the base entry. -/
theorem getPublicClient_cache_stable_witness :
    ({ entries := [("base", 7)], nextId := 8 } : ClientCacheState).entries.lookup "base"
        = some 7 ∧
    getPublicClient { entries := [("base", 7)], nextId := 8 } "ethereum"
        = (8, { entries := [("base", 7), ("ethereum", 8)], nextId := 9 }) ∧
    (getPublicClient { entries := [("base", 7), ("ethereum", 8)], nextId := 9 } "ethereum"
        = (8, { entries := [("base", 7), ("ethereum", 8)], nextId := 9 }) ∧
     ({ entries := [("base", 7), ("ethereum", 8)], nextId := 9 }
        : ClientCacheState).entries.lookup "base" = some 7 ∧
     ({ entries := [("base", 7), ("ethereum", 8)], nextId := 9 }
        : ClientCacheState).entries.lookup "ethereum" = some 8) :=
  ⟨by decide, by decide,
   getPublicClient_cache_stable { entries := [("base", 7)], nextId := 8 }
     "ethereum" "base" 7 8
     { entries := [("base", 7), ("ethereum", 8)], nextId := 9 }
     (by decide) (by decide)⟩

end EvmMcp
